import Mathlib

/-!
# Polling timer (`timer.h`, `timer.c`)

A shallow embedding of `struct timer` and its functions.

Modelling conventions.

* `uint32_t` values are `Nat` (range `< 2 ^ 32`), `int32_t` values are `Int`
  (range `[-2 ^ 31, 2 ^ 31)`); `timer.wf` states the ranges of the fields.
* `clock()` is the only external input.  Every function that calls it takes the
  value returned by that call as an argument (`clock : Int`).  `timer_elapsed`
  can call it twice, so it takes two readings.
* The conversion of a `clock_t` to `int32_t` and the 32-bit signed subtraction
  in `timer_get_delta_ms` keep the low 32 bits: the result is reduced modulo
  `2 ^ 32` into `[-2 ^ 31, 2 ^ 31)` (`toInt32`).
* A `double` is the rational number it denotes.  The conversions of an `int32_t`
  and of a `uint32_t` to `double` are exact.  The only rounding operation is the
  division of a 32-bit integer by `1000.0`: its result is the quotient rounded
  to binary64, to nearest with ties to even (`roundBinary64`).
-/

namespace TimerC

/-- Frequency of the clock in Hz (`#define TIMER_CLOCK_FREQUENCY_HZ 1000.0`). -/
def TIMER_CLOCK_FREQUENCY_HZ : ℚ := 1000

/-- Smallest `int32_t`. -/
def INT32_MIN : Int := -2147483648

/-- Largest `int32_t`. -/
def INT32_MAX : Int := 2147483647

/-- Largest `uint32_t`. -/
def UINT32_MAX : Nat := 4294967295

/-- Reduction of an integer to the `int32_t` with the same low 32 bits. -/
def toInt32 (x : Int) : Int := (x + 2147483648) % 4294967296 - 2147483648

/-- Membership in the range of `int32_t`. -/
def isInt32 (x : Int) : Prop := INT32_MIN ≤ x ∧ x ≤ INT32_MAX

instance (x : Int) : Decidable (isInt32 x) := by
  unfold isInt32; exact inferInstance

/-- Rounding of a rational number to the nearest integer, a tie going to the even
one. -/
def roundHalfEven (x : ℚ) : Int :=
  if x - ⌊x⌋ < 1 / 2 then ⌊x⌋
  else if 1 / 2 < x - ⌊x⌋ then ⌊x⌋ + 1
  else if ⌊x⌋ % 2 = 0 then ⌊x⌋ else ⌊x⌋ + 1

/-- Exponent of the unit in the last place of the binary64 format at `x`: 52
below the exponent of `x`, and that of the subnormal numbers for a smaller `x`. -/
def ulpExponent (x : ℚ) : Int := max (Int.log 2 |x|) (-1022) - 52

/-- Rounding of a rational number to the binary64 format (`double`), to the
nearest number of the format, a tie going to the even significand.  Numbers
beyond the largest finite binary64 get no special treatment; the quotients of
this program are below `2 ^ 22` in magnitude. -/
def roundBinary64 (x : ℚ) : ℚ :=
  (roundHalfEven (x / (2 : ℚ) ^ ulpExponent x) : ℚ) * (2 : ℚ) ^ ulpExponent x

/-- Membership in the finite numbers of the binary64 format: a significand below
`2 ^ 53` in magnitude times a power of two in the range of the format. -/
def isBinary64 (r : ℚ) : Prop :=
  ∃ m k : Int, |m| < 2 ^ 53 ∧ -1074 ≤ k ∧ k ≤ 971 ∧ r = (m : ℚ) * (2 : ℚ) ^ k

/-- The record `struct timer`. -/
structure timer where
  /-- Field `uint32_t elapse_time_ms`. -/
  elapse_time_ms : Nat
  /-- Field `int32_t start_time`. -/
  start_time : Int
  /-- Field `bool enabled`. -/
  enabled : Bool
  deriving DecidableEq

/-- The fields of a timer are in the ranges of their C types. -/
def timer.wf (self : timer) : Prop :=
  self.elapse_time_ms ≤ UINT32_MAX ∧ isInt32 self.start_time

instance (self : timer) : Decidable self.wf := by
  unfold timer.wf; exact inferInstance

/-- Function `timer_init`. -/
def timer_init (_self : timer) (elapse_time_ms : Nat) : timer :=
  { elapse_time_ms := elapse_time_ms, start_time := 0, enabled := false }

/-- Function `timer_get_current_time`: the reading of `clock()` as an `int32_t`. -/
def timer_get_current_time (clock : Int) : Int := toInt32 clock

/-- Function `timer_start`. -/
def timer_start (self : timer) (clock : Int) : timer :=
  { self with start_time := timer_get_current_time clock, enabled := true }

/-- Function `timer_stop`. -/
def timer_stop (self : timer) : timer :=
  { self with enabled := false }

/-- Function `timer_toggle`. -/
def timer_toggle (self : timer) (clock : Int) : timer :=
  if self.enabled then timer_stop self else timer_start self clock

/-- Function `timer_set_elapse_time_ms`. -/
def timer_set_elapse_time_ms (self : timer) (elapse_time_ms : Nat) : timer :=
  { self with elapse_time_ms := elapse_time_ms }

/-- Function `timer_get_delta_ms`: the 32-bit difference, converted to `double`
without rounding, divided by the frequency; the quotient is rounded to a
`double`. -/
def timer_get_delta_ms (clock : Int) (time_stamp : Int) : ℚ :=
  roundBinary64
    (((toInt32 (timer_get_current_time clock - time_stamp) : Int) : ℚ) / TIMER_CLOCK_FREQUENCY_HZ)

/-- Function `timer_get_elapsed_time_ms`. -/
def timer_get_elapsed_time_ms (self : timer) (clock : Int) : ℚ :=
  if self.enabled then timer_get_delta_ms clock self.start_time else 0

/-- Function `timer_elapsed`: the returned flag and the timer after the call.
`clock1` is the reading taken by `timer_get_elapsed_time_ms`, `clock2` the one
taken when the timer is restarted. -/
def timer_elapsed (self : timer) (clock1 clock2 : Int) : Bool × timer :=
  if self.enabled && (self.elapse_time_ms != 0) then
    if timer_get_elapsed_time_ms self clock1 < (self.elapse_time_ms : ℚ) then
      (false, self)
    else
      (true, { self with start_time := timer_get_current_time clock2 })
  else
    (false, self)

/-- Repeated calls of `timer_elapsed`, one for each pair of clock readings, as made
by the polling loop of `main`: the flags returned, in order, and the timer after
the last call. -/
def poll (self : timer) : List (Int × Int) → List Bool × timer
  | [] => ([], self)
  | c :: rest =>
    let r := timer_elapsed self c.1 c.2
    let p := poll r.2 rest
    (r.1 :: p.1, p.2)

/-! ## Arithmetic of the model -/

theorem toInt32_of_isInt32 (x : Int) (h : isInt32 x) : toInt32 x = x := by
  unfold isInt32 INT32_MIN INT32_MAX at h
  unfold toInt32
  omega

theorem isInt32_toInt32 (x : Int) : isInt32 (toInt32 x) := by
  unfold isInt32 INT32_MIN INT32_MAX toInt32
  omega

/-! ## Rounding to binary64 -/

theorem roundHalfEven_le (z : ℚ) (n : Int) (h : z ≤ n) : roundHalfEven z ≤ n := by
  have h1 : (⌊z⌋ : ℚ) ≤ z := Int.floor_le z
  unfold roundHalfEven
  split_ifs with h2 h3 h4
  · exact_mod_cast le_trans h1 h
  · have : (⌊z⌋ : ℚ) < n := by linarith
    have : ⌊z⌋ < n := by exact_mod_cast this
    omega
  · exact_mod_cast le_trans h1 h
  · have : (⌊z⌋ : ℚ) < n := by linarith
    have : ⌊z⌋ < n := by exact_mod_cast this
    omega

theorem le_roundHalfEven (z : ℚ) (n : Int) (h : (n : ℚ) ≤ z) : n ≤ roundHalfEven z := by
  have h1 : n ≤ ⌊z⌋ := Int.le_floor.mpr h
  unfold roundHalfEven
  split_ifs <;> omega

theorem roundHalfEven_error (z : ℚ) : |(roundHalfEven z : ℚ) - z| ≤ 1 / 2 := by
  have h1 : (⌊z⌋ : ℚ) ≤ z := Int.floor_le z
  have h2 : z < (⌊z⌋ : ℚ) + 1 := Int.lt_floor_add_one z
  unfold roundHalfEven
  rw [abs_le]
  split_ifs with h3 h4 h5
  · constructor <;> linarith
  · push_cast; constructor <;> linarith
  · constructor <;> linarith
  · push_cast; constructor <;> linarith

theorem ulp_pos (x : ℚ) : (0 : ℚ) < (2 : ℚ) ^ ulpExponent x :=
  zpow_pos (by norm_num) _

/-- A non-zero `x` is at least `2 ^ 52` units in its last place in magnitude,
as soon as that unit is above the smallest one. -/
theorem ulp_le_abs (x : ℚ) (hx : x ≠ 0) (hE : -1074 < ulpExponent x) :
    (2 : ℚ) ^ (52 : ℕ) * (2 : ℚ) ^ ulpExponent x ≤ |x| := by
  have hlog : ulpExponent x = Int.log 2 |x| - 52 := by
    unfold ulpExponent at hE ⊢
    omega
  have h := Int.zpow_log_le_self (b := 2) (r := |x|) (by norm_num) (abs_pos.mpr hx)
  have e : Int.log 2 |x| = (52 : ℕ) + ulpExponent x := by rw [hlog]; push_cast; ring
  rw [e, zpow_add₀ (by norm_num), zpow_natCast] at h
  exact_mod_cast h

theorem exists_int_mul_ulp (m k E : Int) (h : E ≤ k) :
    ∃ n : Int, (m : ℚ) * (2 : ℚ) ^ k = (n : ℚ) * (2 : ℚ) ^ E := by
  obtain ⟨j, hj⟩ : ∃ j : ℕ, k = (j : Int) + E := ⟨(k - E).toNat, by omega⟩
  refine ⟨m * 2 ^ j, ?_⟩
  rw [hj, zpow_add₀ (by norm_num), zpow_natCast]
  push_cast
  ring

theorem abs_lt_ulp (m k E : Int) (hm : |m| < 2 ^ 53) (h : k < E) :
    |(m : ℚ) * (2 : ℚ) ^ k| < (2 : ℚ) ^ (52 : ℕ) * (2 : ℚ) ^ E := by
  have hk : (0 : ℚ) < (2 : ℚ) ^ k := zpow_pos (by norm_num) _
  have hm2 : |(m : ℚ)| < (2 : ℚ) ^ (53 : ℕ) := by
    have : ((|m| : Int) : ℚ) < ((2 ^ 53 : Int) : ℚ) := by exact_mod_cast hm
    rw [Int.cast_abs] at this
    exact_mod_cast this
  have hle : (2 : ℚ) ^ k ≤ (2 : ℚ) ^ (E - 1) :=
    zpow_le_zpow_right₀ (by norm_num) (by omega)
  have he : (2 : ℚ) ^ (E - 1) = (2 : ℚ) ^ E / 2 := by
    rw [zpow_sub₀ (by norm_num), zpow_one]
  rw [abs_mul, abs_of_pos hk]
  calc |(m : ℚ)| * (2 : ℚ) ^ k < (2 : ℚ) ^ (53 : ℕ) * (2 : ℚ) ^ k :=
        mul_lt_mul_of_pos_right hm2 hk
    _ ≤ (2 : ℚ) ^ (53 : ℕ) * ((2 : ℚ) ^ E / 2) := by
        rw [← he]; exact mul_le_mul_of_nonneg_left hle (by norm_num)
    _ = (2 : ℚ) ^ (52 : ℕ) * (2 : ℚ) ^ E := by ring

theorem roundBinary64_zero : roundBinary64 0 = 0 := by
  simp [roundBinary64, roundHalfEven]

/-- Rounding does not cross a binary64 number from below. -/
theorem roundBinary64_le (x r : ℚ) (hr : isBinary64 r) (h : x ≤ r) : roundBinary64 x ≤ r := by
  obtain ⟨m, k, hm, hk, _, rfl⟩ := hr
  have hu := ulp_pos x
  by_cases hx : x = 0
  · rw [hx, roundBinary64_zero]; rw [hx] at h; exact h
  by_cases hkE : ulpExponent x ≤ k
  · obtain ⟨n, hn⟩ := exists_int_mul_ulp m k (ulpExponent x) hkE
    rw [hn] at h ⊢
    have h1 : x / (2 : ℚ) ^ ulpExponent x ≤ n := by
      rw [div_le_iff₀ hu]; exact h
    have h2 := roundHalfEven_le _ n h1
    unfold roundBinary64
    exact mul_le_mul_of_nonneg_right (by exact_mod_cast h2) hu.le
  · push_neg at hkE
    have hsmall := abs_lt_ulp m k (ulpExponent x) hm hkE
    have hbig := ulp_le_abs x hx (by omega)
    have hxneg : x < 0 := by
      by_contra hc
      push_neg at hc
      rw [abs_of_nonneg hc] at hbig
      have := le_abs_self ((m : ℚ) * (2 : ℚ) ^ k)
      linarith
    rw [abs_of_neg hxneg] at hbig
    have h1 : x / (2 : ℚ) ^ ulpExponent x ≤ ((-(2 ^ 52) : Int) : ℚ) := by
      rw [div_le_iff₀ hu]; push_cast; linarith
    have h2 := roundHalfEven_le _ _ h1
    have h3 : (roundHalfEven (x / (2 : ℚ) ^ ulpExponent x) : ℚ) ≤ ((-(2 ^ 52) : Int) : ℚ) := by
      exact_mod_cast h2
    have h4 := mul_le_mul_of_nonneg_right h3 hu.le
    have h5 := neg_abs_le ((m : ℚ) * (2 : ℚ) ^ k)
    unfold roundBinary64
    push_cast at h4
    linarith

/-- Rounding does not cross a binary64 number from above. -/
theorem le_roundBinary64 (x r : ℚ) (hr : isBinary64 r) (h : r ≤ x) : r ≤ roundBinary64 x := by
  obtain ⟨m, k, hm, hk, _, rfl⟩ := hr
  have hu := ulp_pos x
  by_cases hx : x = 0
  · rw [hx, roundBinary64_zero]; rw [hx] at h; exact h
  by_cases hkE : ulpExponent x ≤ k
  · obtain ⟨n, hn⟩ := exists_int_mul_ulp m k (ulpExponent x) hkE
    rw [hn] at h ⊢
    have h1 : (n : ℚ) ≤ x / (2 : ℚ) ^ ulpExponent x := by
      rw [le_div_iff₀ hu]; exact h
    have h2 := le_roundHalfEven _ n h1
    unfold roundBinary64
    exact mul_le_mul_of_nonneg_right (by exact_mod_cast h2) hu.le
  · push_neg at hkE
    have hsmall := abs_lt_ulp m k (ulpExponent x) hm hkE
    have hbig := ulp_le_abs x hx (by omega)
    have hxpos : 0 < x := by
      by_contra hc
      push_neg at hc
      rw [abs_of_nonpos hc] at hbig
      have := neg_abs_le ((m : ℚ) * (2 : ℚ) ^ k)
      linarith
    rw [abs_of_pos hxpos] at hbig
    have h1 : (((2 ^ 52) : Int) : ℚ) ≤ x / (2 : ℚ) ^ ulpExponent x := by
      rw [le_div_iff₀ hu]; push_cast; linarith
    have h2 := le_roundHalfEven _ _ h1
    have h3 : (((2 ^ 52) : Int) : ℚ) ≤ (roundHalfEven (x / (2 : ℚ) ^ ulpExponent x) : ℚ) := by
      exact_mod_cast h2
    have h4 := mul_le_mul_of_nonneg_right h3 hu.le
    have h5 := le_abs_self ((m : ℚ) * (2 : ℚ) ^ k)
    unfold roundBinary64
    push_cast at h4
    linarith

/-- A binary64 number rounds to itself. -/
theorem roundBinary64_of_isBinary64 (r : ℚ) (hr : isBinary64 r) : roundBinary64 r = r :=
  le_antisymm (roundBinary64_le r r hr le_rfl) (le_roundBinary64 r r hr le_rfl)

/-! ## The elapse test -/

/-- Comparing the exact quotient by the clock frequency with a duration is a
comparison of integers. -/
theorem quotient_lt_iff (d : Int) (e : Nat) :
    ((d : ℚ) / TIMER_CLOCK_FREQUENCY_HZ < (e : ℚ)) ↔ d < 1000 * (e : Int) := by
  unfold TIMER_CLOCK_FREQUENCY_HZ
  rw [div_lt_iff₀ (by norm_num : (0 : ℚ) < 1000)]
  constructor
  · intro h
    have h2 : (d : ℚ) < ((1000 * (e : Int) : Int) : ℚ) := by
      push_cast; linarith
    exact_mod_cast h2
  · intro h
    have h2 : (d : ℚ) < ((1000 * (e : Int) : Int) : ℚ) := by
      exact_mod_cast h
    push_cast at h2; linarith


theorem isBinary64_intCast (n : Int) (h : |n| < 2 ^ 53) : isBinary64 (n : ℚ) :=
  ⟨n, 0, h, by decide, by decide, by simp⟩

theorem isBinary64_div_pow (n : Int) (j : ℕ) (h : |n| < 2 ^ 53) (hj : j ≤ 1074) :
    isBinary64 ((n : ℚ) / (2 : ℚ) ^ j) :=
  ⟨n, -(j : Int), h, by omega, by omega, by rw [zpow_neg, zpow_natCast, div_eq_mul_inv]⟩

/-- Comparing the rounded quotient of an `int32_t` by the clock frequency with a
duration is a comparison of integers: the rounding does not change the test. -/
theorem delta_lt_iff (d : Int) (hd : isInt32 d) (e : Nat) :
    (roundBinary64 ((d : ℚ) / TIMER_CLOCK_FREQUENCY_HZ) < (e : ℚ)) ↔ d < 1000 * (e : Int) := by
  unfold isInt32 INT32_MIN INT32_MAX at hd
  unfold TIMER_CLOCK_FREQUENCY_HZ
  constructor
  · intro h
    by_contra hc
    push_neg at hc
    have he : isBinary64 (((e : Int) : ℚ)) :=
      isBinary64_intCast e (abs_lt.mpr ⟨by omega, by omega⟩)
    have hq : (((e : Int) : ℚ)) ≤ (d : ℚ) / 1000 := by
      rw [le_div_iff₀ (by norm_num)]
      have : (e : Int) * 1000 ≤ d := by omega
      exact_mod_cast this
    have h2 := le_roundBinary64 _ _ he hq
    push_cast at h2
    linarith
  · intro h
    have hd1 : (d : ℚ) ≤ 1000 * (e : ℚ) - 1 := by
      have : d ≤ 1000 * (e : Int) - 1 := by omega
      exact_mod_cast this
    have hd2 : (d : ℚ) ≤ 2147483647 := by exact_mod_cast hd.2
    by_cases hbig : e ≤ 4194304
    · have hr : isBinary64 (((1024 * (e : Int) - 1 : Int) : ℚ) / (2 : ℚ) ^ 10) :=
        isBinary64_div_pow _ 10 (abs_lt.mpr ⟨by omega, by omega⟩) (by decide)
      have hq : (d : ℚ) / 1000 ≤ ((1024 * (e : Int) - 1 : Int) : ℚ) / (2 : ℚ) ^ 10 := by
        rw [div_le_div_iff₀ (by norm_num) (by norm_num)]
        push_cast
        linarith
      have h2 := roundBinary64_le _ _ hr hq
      have h3 : ((1024 * (e : Int) - 1 : Int) : ℚ) / (2 : ℚ) ^ 10 < (e : ℚ) := by
        rw [div_lt_iff₀ (by norm_num)]
        push_cast
        linarith
      linarith
    · have hr : isBinary64 (4194304 : ℚ) := by
        have := isBinary64_intCast 4194304 (by decide)
        simpa using this
      have hq : (d : ℚ) / 1000 ≤ (4194304 : ℚ) := by
        rw [div_le_iff₀ (by norm_num)]
        linarith
      have h2 := roundBinary64_le _ _ hr hq
      have h3 : (4194304 : ℚ) < (e : ℚ) := by
        have : (4194304 : Int) < (e : Int) := by omega
        exact_mod_cast this
      linarith

/-- The rounded quotient of a negative difference is negative. -/
theorem delta_neg (d : Int) (hd : d < 0) :
    roundBinary64 ((d : ℚ) / TIMER_CLOCK_FREQUENCY_HZ) < 0 := by
  unfold TIMER_CLOCK_FREQUENCY_HZ
  have hr : isBinary64 (((-1 : Int) : ℚ) / (2 : ℚ) ^ 10) :=
    isBinary64_div_pow _ 10 (by decide) (by decide)
  have hd1 : (d : ℚ) ≤ -1 := by
    have : d ≤ -1 := by omega
    exact_mod_cast this
  have hq : (d : ℚ) / 1000 ≤ ((-1 : Int) : ℚ) / (2 : ℚ) ^ 10 := by
    rw [div_le_div_iff₀ (by norm_num) (by norm_num)]
    push_cast
    linarith
  have h2 := roundBinary64_le _ _ hr hq
  have h3 : ((-1 : Int) : ℚ) / (2 : ℚ) ^ 10 < 0 := by norm_num
  linarith

/-- The quotient of a multiple of 125 by the clock frequency is a binary64
number: the division is exact. -/
theorem delta_of_dvd (j : Int) (hj : isInt32 (125 * j)) :
    roundBinary64 (((125 * j : Int) : ℚ) / TIMER_CLOCK_FREQUENCY_HZ) = (j : ℚ) / 8 := by
  unfold isInt32 INT32_MIN INT32_MAX at hj
  unfold TIMER_CLOCK_FREQUENCY_HZ
  have e : ((125 * j : Int) : ℚ) / 1000 = (j : ℚ) / (2 : ℚ) ^ 3 := by
    push_cast
    ring
  rw [e, roundBinary64_of_isBinary64 _
    (isBinary64_div_pow j 3 (abs_lt.mpr ⟨by omega, by omega⟩) (by decide))]
  norm_num

/-- Below `2 ^ 22` in magnitude the rounding error is at most `2 ^ (-32)`, half
a unit in the last place. -/
theorem roundBinary64_error (x : ℚ) (hx : |x| < 4194304) :
    |roundBinary64 x - x| ≤ 1 / 4294967296 := by
  have hlog : Int.log 2 |x| < 22 := by
    by_cases h0 : x = 0
    · rw [h0, abs_zero, Int.log_zero_right]; decide
    · rw [← Int.lt_zpow_iff_log_lt (by norm_num) (abs_pos.mpr h0)]
      norm_num
      exact hx
  have hE : ulpExponent x ≤ -31 := by
    unfold ulpExponent
    omega
  have hu := ulp_pos x
  have hu2 : (2 : ℚ) ^ ulpExponent x ≤ (2 : ℚ) ^ (-31 : Int) :=
    zpow_le_zpow_right₀ (by norm_num) hE
  have hu3 : (2 : ℚ) ^ (-31 : Int) = 1 / 2147483648 := by norm_num [zpow_neg]
  have herr := roundHalfEven_error (x / (2 : ℚ) ^ ulpExponent x)
  have e : roundBinary64 x - x
      = ((roundHalfEven (x / (2 : ℚ) ^ ulpExponent x) : ℚ) - x / (2 : ℚ) ^ ulpExponent x)
        * (2 : ℚ) ^ ulpExponent x := by
    unfold roundBinary64
    field_simp
  rw [e, abs_mul, abs_of_pos hu]
  calc |(roundHalfEven (x / (2 : ℚ) ^ ulpExponent x) : ℚ) - x / (2 : ℚ) ^ ulpExponent x|
        * (2 : ℚ) ^ ulpExponent x
      ≤ 1 / 2 * (2 : ℚ) ^ ulpExponent x := mul_le_mul_of_nonneg_right herr hu.le
    _ ≤ 1 / 2 * (1 / 2147483648) := by
        rw [← hu3]; exact mul_le_mul_of_nonneg_left hu2 (by norm_num)
    _ = 1 / 4294967296 := by norm_num

/-- The test of `timer_elapsed` on integers: the flag returned. -/
theorem timer_elapsed_fst (self : timer) (clock1 clock2 : Int) :
    (timer_elapsed self clock1 clock2).1 =
      (self.enabled && (self.elapse_time_ms != 0) &&
        decide (1000 * (self.elapse_time_ms : Int) ≤
          toInt32 (timer_get_current_time clock1 - self.start_time))) := by
  unfold timer_elapsed timer_get_elapsed_time_ms timer_get_delta_ms
  have hiff := delta_lt_iff (toInt32 (timer_get_current_time clock1 - self.start_time))
    (isInt32_toInt32 _) self.elapse_time_ms
  cases hen : self.enabled
  · simp
  · by_cases hz : self.elapse_time_ms = 0
    · simp [hz]
    · simp only [Bool.true_and, if_true, hiff]
      by_cases hlt : toInt32 (timer_get_current_time clock1 - self.start_time)
          < 1000 * (self.elapse_time_ms : Int)
      · simp [hz, hlt]
      · simp [hz, hlt]
        omega

/-- The timer after a call of `timer_elapsed`. -/
theorem timer_elapsed_snd (self : timer) (clock1 clock2 : Int) :
    (timer_elapsed self clock1 clock2).2 =
      if (timer_elapsed self clock1 clock2).1 then
        { self with start_time := timer_get_current_time clock2 }
      else self := by
  unfold timer_elapsed
  split
  · split <;> simp
  · simp

/-- Polls that all return false leave the timer as it is. -/
theorem poll_all_false (self : timer) (polls : List (Int × Int))
    (h : ∀ c ∈ polls, (timer_elapsed self c.1 c.2).1 = false) :
    poll self polls = (List.replicate polls.length false, self) := by
  induction polls with
  | nil => rfl
  | cons c rest ih =>
    have hc : (timer_elapsed self c.1 c.2).1 = false := h c (List.mem_cons_self _ _)
    have hs : (timer_elapsed self c.1 c.2).2 = self := by
      rw [timer_elapsed_snd, hc]; simp
    have hrest := ih (fun d hd => h d (List.mem_cons_of_mem _ hd))
    simp only [poll, hc, hs, hrest, List.length_cons, List.replicate_succ]

/-- The elapsed time of an enabled timer whose 32-bit difference is `125 * j`
ticks. -/
theorem timer_get_elapsed_time_ms_of_dvd (self : timer) (clock : Int) (j : Int)
    (hen : self.enabled = true)
    (hj : toInt32 (timer_get_current_time clock - self.start_time) = 125 * j) :
    timer_get_elapsed_time_ms self clock = (j : ℚ) / 8 := by
  unfold timer_get_elapsed_time_ms timer_get_delta_ms
  rw [if_pos hen, hj]
  exact delta_of_dvd j (by rw [← hj]; exact isInt32_toInt32 _)

/-- The binary64 number nearest to one thousandth. -/
theorem roundBinary64_one_thousandth :
    roundBinary64 (1 / 1000) = 1152921504606847 / 1152921504606846976 := by
  have hpos : (0 : ℚ) < |(1 / 1000 : ℚ)| := by norm_num
  have hlog : Int.log 2 |(1 / 1000 : ℚ)| = -10 := by
    apply le_antisymm
    · have h : Int.log 2 |(1 / 1000 : ℚ)| < -9 :=
        (Int.lt_zpow_iff_log_lt (by norm_num) hpos).mp (by norm_num [zpow_neg, abs_of_pos])
      omega
    · exact (Int.zpow_le_iff_le_log (by norm_num) hpos).mp
        (by norm_num [zpow_neg, abs_of_pos])
  have hE : ulpExponent (1 / 1000) = -62 := by
    unfold ulpExponent
    rw [hlog]
    decide
  have hz : (1 / 1000 : ℚ) / (2 : ℚ) ^ (-62 : Int) = 4611686018427387904 / 1000 := by
    norm_num [zpow_neg]
  have hf : ⌊(4611686018427387904 / 1000 : ℚ)⌋ = 4611686018427387 := by
    rw [Int.floor_eq_iff]
    norm_num
  unfold roundBinary64
  rw [hE, hz]
  unfold roundHalfEven
  rw [hf]
  norm_num [zpow_neg]

/-! ## Claims -/

/-- C1: `timer_elapsed` returns true if and only if the timer is enabled, its
elapse time is non-zero, and the elapsed time, the difference between the current
tick and `start_time` divided by 1000, is not less than the elapse time; on
integers, the difference is at least 1000 times the elapse time.  The difference
is the one the code computes, and it is the difference of the two integers
whenever that is an `int32_t`. -/
theorem timer_elapsed_true_iff (self : timer) (clock1 clock2 : Int) :
    ((timer_elapsed self clock1 clock2).1 = true ↔
      (self.enabled = true ∧ self.elapse_time_ms ≠ 0 ∧
        ¬ ((toInt32 (timer_get_current_time clock1 - self.start_time) : ℚ) / 1000
            < (self.elapse_time_ms : ℚ)))) ∧
    ((timer_elapsed self clock1 clock2).1 = true ↔
      (self.enabled = true ∧ self.elapse_time_ms ≠ 0 ∧
        1000 * (self.elapse_time_ms : Int) ≤
          toInt32 (timer_get_current_time clock1 - self.start_time))) ∧
    (isInt32 (timer_get_current_time clock1 - self.start_time) →
      ((timer_elapsed self clock1 clock2).1 = true ↔
        (self.enabled = true ∧ self.elapse_time_ms ≠ 0 ∧
          1000 * (self.elapse_time_ms : Int) ≤
            timer_get_current_time clock1 - self.start_time))) := by
  have key : (timer_elapsed self clock1 clock2).1 = true ↔
      (self.enabled = true ∧ self.elapse_time_ms ≠ 0 ∧
        1000 * (self.elapse_time_ms : Int) ≤
          toInt32 (timer_get_current_time clock1 - self.start_time)) := by
    rw [timer_elapsed_fst]
    simp [and_assoc]
  refine ⟨?_, key, ?_⟩
  · rw [key]
    have h := quotient_lt_iff (toInt32 (timer_get_current_time clock1 - self.start_time))
      self.elapse_time_ms
    unfold TIMER_CLOCK_FREQUENCY_HZ at h
    rw [h, not_lt]
  · intro hr
    rw [key, toInt32_of_isInt32 _ hr]

/-- C2: a timer initialized with 500 ms and started at tick 0 does not report
elapsed at tick 500, nor at any poll made every 10 ticks from 0 to 600; the
first tick at which it does is 500000. -/
theorem timer_elapsed_500_at_tick_500 :
    (timer_elapsed (timer_start (timer_init ⟨0, 0, false⟩ 500) 0) 500 500).1 = false ∧
    (poll (timer_start (timer_init ⟨0, 0, false⟩ 500) 0)
      ((List.range 61).map (fun (k : Nat) => (10 * Int.ofNat k, 10 * Int.ofNat k)))).1
        = List.replicate 61 false ∧
    (timer_elapsed (timer_start (timer_init ⟨0, 0, false⟩ 500) 0) 499999 499999).1 = false ∧
    (timer_elapsed (timer_start (timer_init ⟨0, 0, false⟩ 500) 0) 500000 500000).1 = true := by
  refine ⟨?_, ?_, ?_, ?_⟩
  · rw [timer_elapsed_fst]; decide
  · rw [poll_all_false]
    · simp only [List.length_map, List.length_range]
    · intro c hc
      simp only [List.mem_map, List.mem_range] at hc
      obtain ⟨k, hk, rfl⟩ := hc
      have hk0 : (0 : Int) ≤ Int.ofNat k := Int.ofNat_nonneg k
      have hk1 : Int.ofNat k < 61 := Int.ofNat_lt.mpr hk
      have ht : timer_get_current_time (10 * Int.ofNat k) = 10 * Int.ofNat k :=
        toInt32_of_isInt32 _ (by unfold isInt32 INT32_MIN INT32_MAX; omega)
      have h0 : timer_get_current_time 0 = 0 := by decide
      have hd : toInt32 (10 * Int.ofNat k - 0) = 10 * Int.ofNat k :=
        toInt32_of_isInt32 _ (by unfold isInt32 INT32_MIN INT32_MAX; omega)
      rw [timer_elapsed_fst]
      simp only [timer_start, timer_init, ht, h0, hd]
      simp
      omega
  · rw [timer_elapsed_fst]; decide
  · rw [timer_elapsed_fst]; decide

/-- C3: whenever `timer_elapsed` returns true, the timer after the call has
`start_time` equal to the current tick read for the restart, and its `enabled`
flag and elapse time are those before the call. -/
theorem timer_elapsed_true_rearms (self : timer) (clock1 clock2 : Int)
    (h : (timer_elapsed self clock1 clock2).1 = true) :
    (timer_elapsed self clock1 clock2).2.start_time = timer_get_current_time clock2 ∧
    (timer_elapsed self clock1 clock2).2.enabled = self.enabled ∧
    (timer_elapsed self clock1 clock2).2.elapse_time_ms = self.elapse_time_ms := by
  rw [timer_elapsed_snd, h]
  simp

theorem timer_elapsed_true_rearms_witness :
    (timer_elapsed ⟨500, 1000, true⟩ 600000 600000).1 = true ∧
    (timer_elapsed ⟨500, 1000, true⟩ 600000 600000).2.start_time = 600000 ∧
    (timer_elapsed ⟨500, 1000, true⟩ 600000 600000).2.start_time ≠ 1000 + 1000 * 500 ∧
    (timer_elapsed ⟨500, 1000, true⟩ 600000 600000).2.enabled = true ∧
    (timer_elapsed ⟨500, 1000, true⟩ 600000 600000).2.elapse_time_ms = 500 := by
  have h0 : (timer_elapsed ⟨500, 1000, true⟩ 600000 600000).1 = true := by
    rw [timer_elapsed_fst]; decide
  have h := timer_elapsed_true_rearms ⟨500, 1000, true⟩ 600000 600000 h0
  have ht : timer_get_current_time 600000 = 600000 := by decide
  rw [ht] at h
  refine ⟨h0, h.1, ?_, h.2.1, h.2.2⟩
  rw [h.1]; decide

/-- C4: whenever `timer_elapsed` returns false, the timer after the call is the
timer before the call. -/
theorem timer_elapsed_false_unchanged (self : timer) (clock1 clock2 : Int)
    (h : (timer_elapsed self clock1 clock2).1 = false) :
    (timer_elapsed self clock1 clock2).2 = self := by
  rw [timer_elapsed_snd, h]
  simp

theorem timer_elapsed_false_unchanged_witness :
    (timer_elapsed ⟨500, 1000, true⟩ 2000 2000).1 = false ∧
    (timer_elapsed ⟨500, 1000, true⟩ 2000 2000).2 = ⟨500, 1000, true⟩ :=
  ⟨by rw [timer_elapsed_fst]; decide,
   timer_elapsed_false_unchanged ⟨500, 1000, true⟩ 2000 2000
     (by rw [timer_elapsed_fst]; decide)⟩

/-- C5: for a timer that is not enabled, whatever its `start_time`, its elapse
time and the clock readings, `timer_get_elapsed_time_ms` returns 0 and
`timer_elapsed` returns false. -/
theorem disabled_reports_nothing (self : timer) (clock clock1 clock2 : Int)
    (h : self.enabled = false) :
    timer_get_elapsed_time_ms self clock = 0 ∧
    (timer_elapsed self clock1 clock2).1 = false := by
  constructor
  · unfold timer_get_elapsed_time_ms
    simp [h]
  · rw [timer_elapsed_fst, h]
    simp

theorem disabled_reports_nothing_witness :
    (⟨500, 1000, false⟩ : timer).enabled = false ∧
    timer_get_elapsed_time_ms ⟨500, 1000, false⟩ 900000 = 0 ∧
    (timer_elapsed ⟨500, 1000, false⟩ 900000 900000).1 = false :=
  ⟨rfl, disabled_reports_nothing ⟨500, 1000, false⟩ 900000 900000 900000 rfl⟩

/-- C6: for every elapse time and every prior timer, `timer_init` yields the timer
with that elapse time, `start_time` 0 and `enabled` false; on it, without a
`timer_start`, `timer_elapsed` returns false and leaves the timer as it is, and
`timer_get_elapsed_time_ms` returns 0, at every clock reading. -/
theorem timer_init_disabled (prior : timer) (elapse_time_ms : Nat)
    (clock clock1 clock2 : Int) :
    timer_init prior elapse_time_ms
      = { elapse_time_ms := elapse_time_ms, start_time := 0, enabled := false } ∧
    timer_elapsed (timer_init prior elapse_time_ms) clock1 clock2
      = (false, timer_init prior elapse_time_ms) ∧
    timer_get_elapsed_time_ms (timer_init prior elapse_time_ms) clock = 0 := by
  refine ⟨rfl, ?_, ?_⟩
  · simp [timer_elapsed, timer_init]
  · simp [timer_get_elapsed_time_ms, timer_init]

/-- C7: for a timer initialized with elapse time 0 and then started, every call of
`timer_elapsed` in every finite sequence of polls, at arbitrary clock readings,
returns false, and the timer after the polls is the timer as started. -/
theorem zero_duration_never_elapses (prior : timer) (clock0 : Int)
    (polls : List (Int × Int)) :
    poll (timer_start (timer_init prior 0) clock0) polls
      = (List.replicate polls.length false, timer_start (timer_init prior 0) clock0) := by
  apply poll_all_false
  intro c _
  rw [timer_elapsed_fst]
  simp [timer_start, timer_init]

/-- C8, at the input that refutes it: a running timer has accrued 5 ms, the new
elapse time 0 is less than that, and the next `timer_elapsed` at the same tick
returns false. -/
theorem set_zero_duration_not_elapsed :
    (⟨500, 0, true⟩ : timer).enabled = true ∧
    ((0 : Nat) : ℚ) < timer_get_elapsed_time_ms ⟨500, 0, true⟩ 5000 ∧
    (timer_elapsed (timer_set_elapse_time_ms ⟨500, 0, true⟩ 0) 5000 5000).1 = false := by
  refine ⟨rfl, ?_, ?_⟩
  · rw [timer_get_elapsed_time_ms_of_dvd ⟨500, 0, true⟩ 5000 40 rfl (by decide)]
    norm_num
  · rw [timer_elapsed_fst]; decide

/-- C8, amended: for an enabled timer whose elapsed time at a clock reading is
`E` ms, and for every new elapse time that is non-zero and less than `E`, the
call of `timer_elapsed` that follows `timer_set_elapse_time_ms` at the same
reading returns true. -/
theorem set_smaller_duration_elapses (self : timer) (clock clock2 : Int)
    (elapse_time_ms : Nat) (hen : self.enabled = true) (hpos : 0 < elapse_time_ms)
    (hlt : (elapse_time_ms : ℚ) < timer_get_elapsed_time_ms self clock) :
    (timer_elapsed (timer_set_elapse_time_ms self elapse_time_ms) clock clock2).1 = true := by
  unfold timer_get_elapsed_time_ms at hlt
  rw [if_pos hen] at hlt
  unfold timer_get_delta_ms at hlt
  have h := (not_congr (delta_lt_iff
    (toInt32 (timer_get_current_time clock - self.start_time)) (isInt32_toInt32 _)
    elapse_time_ms)).mp (not_lt.mpr (le_of_lt hlt))
  rw [timer_elapsed_fst]
  simp only [timer_set_elapse_time_ms, hen, Bool.true_and, Bool.and_eq_true, bne_iff_ne,
    decide_eq_true_eq]
  constructor
  · omega
  · omega

theorem set_smaller_duration_elapses_witness :
    (⟨500, 0, true⟩ : timer).enabled = true ∧ 0 < 3 ∧
    ((3 : Nat) : ℚ) < timer_get_elapsed_time_ms ⟨500, 0, true⟩ 5000 ∧
    (timer_elapsed (timer_set_elapse_time_ms ⟨500, 0, true⟩ 3) 5000 5000).1 = true := by
  have hlt : ((3 : Nat) : ℚ) < timer_get_elapsed_time_ms ⟨500, 0, true⟩ 5000 := by
    rw [timer_get_elapsed_time_ms_of_dvd ⟨500, 0, true⟩ 5000 40 rfl (by decide)]
    norm_num
  exact ⟨rfl, by decide, hlt,
    set_smaller_duration_elapses ⟨500, 0, true⟩ 5000 5000 3 rfl (by decide) hlt⟩

/-- C9: for every timer and clock reading, `timer_toggle` produces the timer that
`timer_stop` produces when the timer is enabled, and the timer that `timer_start`
produces at the same reading when it is not. -/
theorem timer_toggle_eq (self : timer) (clock : Int) :
    (self.enabled = true → timer_toggle self clock = timer_stop self) ∧
    (self.enabled = false → timer_toggle self clock = timer_start self clock) := by
  constructor
  · intro h
    simp [timer_toggle, h]
  · intro h
    simp [timer_toggle, h]

/-- C10: a timer initialized with elapse time 0 and started at tick 0 reports an
elapsed time of 10, not 10000, when queried at tick 10000; `timer_elapsed`
returns false there. -/
theorem elapsed_time_after_10000_ticks :
    timer_get_elapsed_time_ms (timer_start (timer_init ⟨0, 0, false⟩ 0) 0) 10000 = 10 ∧
    timer_get_elapsed_time_ms (timer_start (timer_init ⟨0, 0, false⟩ 0) 0) 10000 ≠ 10000 ∧
    (timer_elapsed (timer_start (timer_init ⟨0, 0, false⟩ 0) 0) 10000 10000).1 = false := by
  have h : timer_get_elapsed_time_ms (timer_start (timer_init ⟨0, 0, false⟩ 0) 0) 10000
      = 10 := by
    rw [timer_get_elapsed_time_ms_of_dvd _ 10000 80 rfl (by decide)]
    norm_num
  refine ⟨h, ?_, ?_⟩
  · rw [h]; norm_num
  · rw [timer_elapsed_fst]; decide

/-- C11, at the input that refutes it: one tick after its start an enabled timer
reports the binary64 number nearest to one thousandth, which is not the quotient
of the difference by 1000. -/
theorem elapsed_time_one_tick_rounded :
    (⟨500, 0, true⟩ : timer).enabled = true ∧
    toInt32 (timer_get_current_time 1 - (⟨500, 0, true⟩ : timer).start_time) = 1 ∧
    timer_get_elapsed_time_ms ⟨500, 0, true⟩ 1
      = 1152921504606847 / 1152921504606846976 ∧
    timer_get_elapsed_time_ms ⟨500, 0, true⟩ 1
      ≠ ((toInt32 (timer_get_current_time 1 - (⟨500, 0, true⟩ : timer).start_time) : Int) : ℚ)
          / 1000 := by
  have hd : toInt32 (timer_get_current_time 1 - (⟨500, 0, true⟩ : timer).start_time) = 1 := by
    decide
  have hv : timer_get_elapsed_time_ms ⟨500, 0, true⟩ 1
      = 1152921504606847 / 1152921504606846976 := by
    unfold timer_get_elapsed_time_ms timer_get_delta_ms TIMER_CLOCK_FREQUENCY_HZ
    rw [if_pos rfl, hd]
    have e : (((1 : Int) : ℚ)) / 1000 = 1 / 1000 := by norm_num
    rw [e, roundBinary64_one_thousandth]
  refine ⟨rfl, hd, hv, ?_⟩
  rw [hv, hd]
  norm_num

/-- C11, amended: for every enabled timer and every clock reading,
`timer_get_elapsed_time_ms` returns the difference between the current tick and
`start_time` divided by 1000 and rounded to the nearest `double`: the value is
within `2 ^ (-32)` of the quotient, and it is the quotient when the difference is
a multiple of 125 ticks.  The value is the same for every elapse time, so it is
not capped by it.  The difference is the one the code computes, and it is the
difference of the two integers whenever that is an `int32_t`.  The function
reads the timer only. -/
theorem timer_get_elapsed_time_ms_rounded (self : timer) (clock : Int)
    (elapse_time_ms : Nat) (h : self.enabled = true) :
    timer_get_elapsed_time_ms self clock
      = roundBinary64
          ((toInt32 (timer_get_current_time clock - self.start_time) : ℚ) / 1000) ∧
    |timer_get_elapsed_time_ms self clock
      - (toInt32 (timer_get_current_time clock - self.start_time) : ℚ) / 1000|
        ≤ 1 / 4294967296 ∧
    (125 ∣ toInt32 (timer_get_current_time clock - self.start_time) →
      timer_get_elapsed_time_ms self clock
        = (toInt32 (timer_get_current_time clock - self.start_time) : ℚ) / 1000) ∧
    timer_get_elapsed_time_ms (timer_set_elapse_time_ms self elapse_time_ms) clock
      = timer_get_elapsed_time_ms self clock ∧
    (isInt32 (timer_get_current_time clock - self.start_time) →
      timer_get_elapsed_time_ms self clock
        = roundBinary64
            (((timer_get_current_time clock - self.start_time : Int) : ℚ) / 1000)) := by
  have h1 : timer_get_elapsed_time_ms self clock
      = roundBinary64
          ((toInt32 (timer_get_current_time clock - self.start_time) : ℚ) / 1000) := by
    unfold timer_get_elapsed_time_ms timer_get_delta_ms TIMER_CLOCK_FREQUENCY_HZ
    rw [if_pos h]
  have hr := isInt32_toInt32 (timer_get_current_time clock - self.start_time)
  refine ⟨h1, ?_, ?_, ?_, ?_⟩
  · rw [h1]
    apply roundBinary64_error
    unfold isInt32 INT32_MIN INT32_MAX at hr
    have hlo : (-2147483648 : ℚ)
        ≤ (toInt32 (timer_get_current_time clock - self.start_time) : ℚ) := by
      exact_mod_cast hr.1
    have hhi : (toInt32 (timer_get_current_time clock - self.start_time) : ℚ)
        ≤ 2147483647 := by
      exact_mod_cast hr.2
    rw [abs_lt]
    constructor
    · rw [lt_div_iff₀ (by norm_num)]; linarith
    · rw [div_lt_iff₀ (by norm_num)]; linarith
  · intro hdvd
    obtain ⟨j, hj⟩ := hdvd
    rw [timer_get_elapsed_time_ms_of_dvd self clock j h hj, hj]
    push_cast
    ring
  · unfold timer_get_elapsed_time_ms timer_set_elapse_time_ms
    rfl
  · intro hplain
    rw [h1, toInt32_of_isInt32 _ hplain]

theorem timer_get_elapsed_time_ms_rounded_witness :
    (⟨2, 1000, true⟩ : timer).enabled = true ∧
    timer_get_elapsed_time_ms ⟨2, 1000, true⟩ 8000 = 7 ∧
    ((⟨2, 1000, true⟩ : timer).elapse_time_ms : ℚ)
      < timer_get_elapsed_time_ms ⟨2, 1000, true⟩ 8000 := by
  have hd : toInt32 (timer_get_current_time 8000 - (⟨2, 1000, true⟩ : timer).start_time)
      = 7000 := by decide
  have h := (timer_get_elapsed_time_ms_rounded ⟨2, 1000, true⟩ 8000 0 rfl).2.2.1
    (by rw [hd]; decide)
  have hv : timer_get_elapsed_time_ms ⟨2, 1000, true⟩ 8000 = 7 := by
    rw [h, hd]
    norm_num
  refine ⟨rfl, hv, ?_⟩
  rw [hv]
  norm_num

/-- C12: timers initialized with 500 ms and 1000 ms, started at tick 0 and polled
at every tick from 0 to 1000, never report elapsed: every flag is false, at
ticks 500 and 1000 too. -/
theorem two_timers_polled_to_1000 :
    (poll (timer_start (timer_init ⟨0, 0, false⟩ 500) 0)
      ((List.range 1001).map (fun (k : Nat) => (Int.ofNat k, Int.ofNat k)))).1
        = List.replicate 1001 false ∧
    (poll (timer_start (timer_init ⟨0, 0, false⟩ 1000) 0)
      ((List.range 1001).map (fun (k : Nat) => (Int.ofNat k, Int.ofNat k)))).1
        = List.replicate 1001 false ∧
    (timer_elapsed (timer_start (timer_init ⟨0, 0, false⟩ 500) 0) 500 500).1 = false ∧
    (timer_elapsed (timer_start (timer_init ⟨0, 0, false⟩ 500) 0) 1000 1000).1 = false ∧
    (timer_elapsed (timer_start (timer_init ⟨0, 0, false⟩ 1000) 0) 1000 1000).1 = false := by
  have key : ∀ (d : Nat), 1 < d → ∀ c ∈ (List.range 1001).map
      (fun (k : Nat) => (Int.ofNat k, Int.ofNat k)),
      (timer_elapsed (timer_start (timer_init ⟨0, 0, false⟩ d) 0) c.1 c.2).1 = false := by
    intro d hd c hc
    simp only [List.mem_map, List.mem_range] at hc
    obtain ⟨k, hk, rfl⟩ := hc
    have hk0 : (0 : Int) ≤ Int.ofNat k := Int.ofNat_nonneg k
    have hk1 : Int.ofNat k < 1001 := Int.ofNat_lt.mpr hk
    have ht : timer_get_current_time (Int.ofNat k) = Int.ofNat k :=
      toInt32_of_isInt32 _ (by unfold isInt32 INT32_MIN INT32_MAX; omega)
    have h0 : timer_get_current_time 0 = 0 := by decide
    have hdl : toInt32 (Int.ofNat k - 0) = Int.ofNat k :=
      toInt32_of_isInt32 _ (by unfold isInt32 INT32_MIN INT32_MAX; omega)
    rw [timer_elapsed_fst]
    simp only [timer_start, timer_init, ht, h0, hdl]
    simp
    omega
  refine ⟨?_, ?_, ?_, ?_, ?_⟩
  · rw [poll_all_false _ _ (key 500 (by decide))]
    simp only [List.length_map, List.length_range]
  · rw [poll_all_false _ _ (key 1000 (by decide))]
    simp only [List.length_map, List.length_range]
  · rw [timer_elapsed_fst]; decide
  · rw [timer_elapsed_fst]; decide
  · rw [timer_elapsed_fst]; decide

/-- C13: for every timer and clock reading, `timer_start` yields `enabled` true
and `start_time` equal to the current tick, with the elapse time unchanged; the
result is the same whatever `enabled` and `start_time` were before, and
`timer_start` applied twice at the same reading equals `timer_start` applied
once. -/
theorem timer_start_spec (self : timer) (clock : Int) (enabled : Bool) (start_time : Int) :
    (timer_start self clock).enabled = true ∧
    (timer_start self clock).start_time = timer_get_current_time clock ∧
    (timer_start self clock).elapse_time_ms = self.elapse_time_ms ∧
    timer_start ⟨self.elapse_time_ms, start_time, enabled⟩ clock = timer_start self clock ∧
    timer_start (timer_start self clock) clock = timer_start self clock :=
  ⟨rfl, rfl, rfl, rfl, rfl⟩

/-- C14: for every timer, `timer_stop` yields `enabled` false and leaves
`start_time` and the elapse time unchanged; applied to a timer that is not
enabled it returns that timer. -/
theorem timer_stop_spec (self : timer) :
    (timer_stop self).enabled = false ∧
    (timer_stop self).start_time = self.start_time ∧
    (timer_stop self).elapse_time_ms = self.elapse_time_ms ∧
    (self.enabled = false → timer_stop self = self) ∧
    timer_stop (timer_stop self) = timer_stop self := by
  refine ⟨rfl, rfl, rfl, ?_, rfl⟩
  intro h
  cases self
  simp only [timer_stop] at *
  simp [h]

/-- C15: for every timer and every new elapse time, `timer_set_elapse_time_ms`
yields a timer with that elapse time and with `enabled` and `start_time`
unchanged. -/
theorem timer_set_elapse_time_ms_spec (self : timer) (elapse_time_ms : Nat) :
    (timer_set_elapse_time_ms self elapse_time_ms).elapse_time_ms = elapse_time_ms ∧
    (timer_set_elapse_time_ms self elapse_time_ms).enabled = self.enabled ∧
    (timer_set_elapse_time_ms self elapse_time_ms).start_time = self.start_time :=
  ⟨rfl, rfl, rfl⟩

/-- C16: for every enabled timer whose current tick is smaller than its
`start_time`, the 32-bit subtraction not overflowing, `timer_get_elapsed_time_ms`
is negative and `timer_elapsed` returns false, whatever the elapse time, and
leaves the timer, its `start_time` included, as it was. -/
theorem tick_before_start_not_elapsed (self : timer) (clock1 clock2 : Int)
    (hen : self.enabled = true)
    (hlt : timer_get_current_time clock1 < self.start_time)
    (hr : isInt32 (timer_get_current_time clock1 - self.start_time)) :
    timer_get_elapsed_time_ms self clock1 < 0 ∧
    (timer_elapsed self clock1 clock2).1 = false ∧
    (timer_elapsed self clock1 clock2).2 = self := by
  have hneg : toInt32 (timer_get_current_time clock1 - self.start_time) < 0 := by
    rw [toInt32_of_isInt32 _ hr]; omega
  have hflag : (timer_elapsed self clock1 clock2).1 = false := by
    rw [timer_elapsed_fst]
    have hn : ¬ (1000 * (self.elapse_time_ms : Int) ≤
        toInt32 (timer_get_current_time clock1 - self.start_time)) := by omega
    simp [hn]
  refine ⟨?_, hflag, ?_⟩
  · unfold timer_get_elapsed_time_ms timer_get_delta_ms
    rw [if_pos hen]
    exact delta_neg _ hneg
  · rw [timer_elapsed_snd, hflag]
    simp

theorem tick_before_start_not_elapsed_witness :
    (⟨1, 1000, true⟩ : timer).enabled = true ∧
    timer_get_current_time 4294966796 = -500 ∧
    timer_get_current_time 4294966796 < (⟨1, 1000, true⟩ : timer).start_time ∧
    isInt32 (timer_get_current_time 4294966796 - (⟨1, 1000, true⟩ : timer).start_time) ∧
    timer_get_elapsed_time_ms ⟨1, 1000, true⟩ 4294966796 < 0 ∧
    (timer_elapsed ⟨1, 1000, true⟩ 4294966796 4294966796).1 = false ∧
    (timer_elapsed ⟨1, 1000, true⟩ 4294966796 4294966796).2 = ⟨1, 1000, true⟩ :=
  ⟨rfl, by decide, by decide, by decide,
   tick_before_start_not_elapsed ⟨1, 1000, true⟩ 4294966796 4294966796 rfl
     (by decide) (by decide)⟩

/-- C17: a timer whose elapse time is greater than 2147483 ms never reports
elapsed: for every `start_time` and every clock reading, whether or not the
32-bit subtraction wraps, `timer_elapsed` returns false. -/
theorem long_duration_never_elapses (self : timer) (clock1 clock2 : Int)
    (h : 2147483 < self.elapse_time_ms) :
    (timer_elapsed self clock1 clock2).1 = false := by
  rw [timer_elapsed_fst]
  have hb := isInt32_toInt32 (timer_get_current_time clock1 - self.start_time)
  unfold isInt32 INT32_MIN INT32_MAX at hb
  have hn : ¬ (1000 * (self.elapse_time_ms : Int) ≤
      toInt32 (timer_get_current_time clock1 - self.start_time)) := by omega
  simp [hn]

theorem long_duration_never_elapses_witness :
    2147483 < (⟨2147484, 0, true⟩ : timer).elapse_time_ms ∧
    (⟨2147484, 0, true⟩ : timer).wf ∧
    (timer_elapsed ⟨2147484, 0, true⟩ 2147483647 2147483647).1 = false ∧
    (timer_elapsed ⟨2147483, 0, true⟩ 2147483647 2147483647).1 = true :=
  ⟨by decide, by decide,
   long_duration_never_elapses ⟨2147484, 0, true⟩ 2147483647 2147483647 (by decide),
   by rw [timer_elapsed_fst]; decide⟩

/-- C18: `timer_elapsed` takes two clock readings on its true branch.  The flag
depends on the first one only, and for every pair of ticks `t1 ≤ t2` read from
the clock for which the call returns true, the new `start_time` is `t2`; it is
not before the tick that was tested, and equals it if and only if `t1 = t2`. -/
theorem timer_elapsed_two_readings (self : timer) (clock1 clock2 clock3 : Int)
    (hle : timer_get_current_time clock1 ≤ timer_get_current_time clock2)
    (h : (timer_elapsed self clock1 clock2).1 = true) :
    (timer_elapsed self clock1 clock3).1 = true ∧
    (timer_elapsed self clock1 clock2).2.start_time = timer_get_current_time clock2 ∧
    timer_get_current_time clock1 ≤ (timer_elapsed self clock1 clock2).2.start_time ∧
    ((timer_elapsed self clock1 clock2).2.start_time = timer_get_current_time clock1 ↔
      timer_get_current_time clock1 = timer_get_current_time clock2) := by
  have hs : (timer_elapsed self clock1 clock2).2.start_time
      = timer_get_current_time clock2 := by
    rw [timer_elapsed_snd, h]
    simp
  refine ⟨?_, hs, ?_, ?_⟩
  · rw [timer_elapsed_fst] at h
    rw [timer_elapsed_fst]
    exact h
  · rw [hs]
    exact hle
  · rw [hs]
    exact eq_comm

theorem timer_elapsed_two_readings_witness :
    timer_get_current_time 500000 ≤ timer_get_current_time 500007 ∧
    (timer_elapsed ⟨500, 0, true⟩ 500000 500007).1 = true ∧
    (timer_elapsed ⟨500, 0, true⟩ 500000 500007).2.start_time = 500007 ∧
    (timer_elapsed ⟨500, 0, true⟩ 500000 500007).2.start_time ≠ 500000 := by
  have h0 : (timer_elapsed ⟨500, 0, true⟩ 500000 500007).1 = true := by
    rw [timer_elapsed_fst]; decide
  have hle : timer_get_current_time 500000 ≤ timer_get_current_time 500007 := by decide
  have h := timer_elapsed_two_readings ⟨500, 0, true⟩ 500000 500007 0 hle h0
  have ht : timer_get_current_time 500007 = 500007 := by decide
  refine ⟨hle, h0, ?_, ?_⟩
  · rw [h.2.1, ht]
  · rw [h.2.1, ht]; decide

end TimerC
